import Mathlib

/-!
Shallow embedding of resticprofile's schedule translation:
`schedule/parse_systemd.go` (the systemd validator `loadSchedules`) and the
Windows Task Scheduler builder of the `schtasks` package (`NewTask`,
`AddSchedules`, the daily/weekly/monthly trigger synthesizers,
`compileDifferences`, `getRepetitionDuration` and the field converters).

Modelling conventions:
- Instants (`time.Time`) are integers counting seconds; durations
  (`time.Duration`, `period.Period`) are integers counting seconds.  Within
  the ranges the builder produces (well below 2^53 nanoseconds) Go's
  comparison of `Duration.Seconds()` float values is injective, so integer
  equality of durations models it exactly.
- `period.NewOf`, `period.Between` and `Period.Normalise(false)` do not
  change the length of time a period represents; they are modelled as the
  identity on the integer number of seconds.
- `time.Time.Format(dateFormat)` is injective on instants, so the
  `StartBoundary` fields keep the instant itself.
- `clog.Warningf` calls are modelled by a list of emitted warning strings
  returned next to the task.
- Go slices become lists; the distinction between a nil slice and an empty
  slice (lazy allocation on first insert) has no semantic content here.
-/

namespace Resticprofile

/-- Modelled from the spec: the `calendar.Event` evaluator belongs to the
same repository but is not part of the shown source.  An `Event` records the
answers the evaluator gives for the fixed anchor the builder uses: `asTime`
is `AsTime()`, the three booleans are the `IsDaily`/`IsWeekly`/`IsMonthly`
classifiers, `next` is `Next(time.Now())`, `recurrences` is
`GetAllInBetween(next, next + 24h)`, and the remaining fields are the
`GetRangeValues()` and `HasValue()` accessors of the weekday, day and month
fields. -/
structure Event where
  asTime : Option Int
  isDaily : Bool
  isWeekly : Bool
  isMonthly : Bool
  next : Int
  recurrences : List Int
  weekDayValues : List Int
  dayValues : List Int
  monthValues : List Int
  weekDayHasValue : Bool
  dayHasValue : Bool
  deriving DecidableEq, Repr

/-- Errors returned by `loadSchedules`: `errors.New("empty schedule")`, and
the error of a failed `systemd-analyze` run, which carries the process exit
code and nothing else. -/
inductive ScheduleError where
  | emptySchedule : ScheduleError
  | exitError : Nat → ScheduleError
  deriving DecidableEq, Repr

/-- `loadSchedules` from `schedule/parse_systemd.go`.  The external
`systemd-analyze calendar <schedule>` process is a parameter mapping a
schedule string to its exit code; `cmd.Run()` returns an error exactly when
the exit code is non-zero.  The middle component instruments the run with
the list of schedules the analyzer was invoked on, in order.  The first
component is the `events` slice, which the loop never appends to. -/
def loadSchedules (analyzer : String → Nat) :
    List String → List Event × List String × Option ScheduleError
  | [] => ([], [], none)
  | schedule :: rest =>
    if schedule = "" then ([], [], some ScheduleError.emptySchedule)
    else
      let code := analyzer schedule
      if code = 0 then
        let r := loadSchedules analyzer rest
        (r.1, schedule :: r.2.1, r.2.2)
      else ([], [schedule], some (ScheduleError.exitError code))

/-- The adjacent differences `differences[i] = recurrences[i+1] -
recurrences[i]` computed by the first loop of `compileDifferences`. -/
def differencesOf : List Int → List Int
  | a :: b :: rest => (b - a) :: differencesOf (b :: rest)
  | _ => []

/-- The second loop of `compileDifferences`: scan the differences and append
each one that differs from the previously appended one, starting from
`previous = 0`.  The Go code compares `difference.Seconds()` values, which
agrees with duration equality on this model. -/
def compactOf : List Int → Int → List Int
  | [], _ => []
  | difference :: rest, previous =>
    if difference = previous then compactOf rest previous
    else difference :: compactOf rest difference

/-- The body of `compileDifferences` for inputs on which it does not panic;
the callers in the trigger synthesizers only reach it with at least two
recurrences. -/
def compileDifferencesCore (recurrences : List Int) : List Int × List Int :=
  (differencesOf recurrences, compactOf (differencesOf recurrences) 0)

/-- `compileDifferences` from the source.  On the empty list Go executes
`make([]time.Duration, -1)`, which panics at run time with
`makeslice: len out of range`; the panic is modelled as `none`. -/
def compileDifferences (recurrences : List Int) : Option (List Int × List Int) :=
  match recurrences with
  | [] => none
  | _ :: _ => some (compileDifferencesCore recurrences)

/-- `period.NewHMS(hours, minutes, seconds)` as a number of seconds. -/
def period_NewHMS (hours minutes seconds : Int) : Int :=
  hours * 3600 + minutes * 60 + seconds

/-- `getRepetitionDuration`: `period.Between(start, last)` where `last` is
the final recurrence, with the promotion of an exactly-1439-minute span to
1440 minutes (`period.NewHMS(0, 1440, 0)`).  Go indexes
`recurrences[len(recurrences)-1]`; every caller passes a non-empty list, so
the default of `getLastD` is never read. -/
def getRepetitionDuration (start : Int) (recurrences : List Int) : Int :=
  let last := recurrences.getLastD 0
  let duration := last - start
  if duration = 1439 * 60 then period_NewHMS 0 1440 0 else duration

/-- Presence flags for the `DaysOfWeek` XML element: one empty child element
per enabled day. -/
structure DaysOfWeek where
  sunday : Bool
  monday : Bool
  tuesday : Bool
  wednesday : Bool
  thursday : Bool
  friday : Bool
  saturday : Bool
  deriving DecidableEq, Repr

/-- The zero value of `DaysOfWeek` (no day enabled). -/
def noWeekDays : DaysOfWeek :=
  ⟨false, false, false, false, false, false, false⟩

/-- One step of the `switch` inside `convertWeekdays`: `0` and `7` both
enable Sunday, `1` to `6` enable Monday to Saturday, anything else is
ignored. -/
def setWeekday (w : DaysOfWeek) (weekday : Int) : DaysOfWeek :=
  if weekday = 0 ∨ weekday = 7 then { w with sunday := true }
  else if weekday = 1 then { w with monday := true }
  else if weekday = 2 then { w with tuesday := true }
  else if weekday = 3 then { w with wednesday := true }
  else if weekday = 4 then { w with thursday := true }
  else if weekday = 5 then { w with friday := true }
  else if weekday = 6 then { w with saturday := true }
  else w

/-- `convertWeekdays` from the source: the empty input returns the zero
value, otherwise the loop enables one day per listed value. -/
def convertWeekdays (input : List Int) : DaysOfWeek :=
  if input.isEmpty then noWeekDays
  else input.foldl setWeekday noWeekDays

/-- Presence flags for the `Months` XML element. -/
structure Months where
  january : Bool
  february : Bool
  march : Bool
  april : Bool
  may : Bool
  june : Bool
  july : Bool
  august : Bool
  september : Bool
  october : Bool
  november : Bool
  december : Bool
  deriving DecidableEq, Repr

/-- All twelve months enabled. -/
def allMonths : Months :=
  ⟨true, true, true, true, true, true, true, true, true, true, true, true⟩

/-- The zero value of `Months` (no month enabled). -/
def noMonths : Months :=
  ⟨false, false, false, false, false, false, false, false, false, false, false, false⟩

/-- One step of the `switch` inside `convertMonths`. -/
def setMonth (m : Months) (month : Int) : Months :=
  if month = 1 then { m with january := true }
  else if month = 2 then { m with february := true }
  else if month = 3 then { m with march := true }
  else if month = 4 then { m with april := true }
  else if month = 5 then { m with may := true }
  else if month = 6 then { m with june := true }
  else if month = 7 then { m with july := true }
  else if month = 8 then { m with august := true }
  else if month = 9 then { m with september := true }
  else if month = 10 then { m with october := true }
  else if month = 11 then { m with november := true }
  else if month = 12 then { m with december := true }
  else m

/-- `convertMonths` from the source: the empty input enables all twelve
months, otherwise the loop enables the listed ones and drops out-of-range
values. -/
def convertMonths (input : List Int) : Months :=
  if input.isEmpty then allMonths
  else input.foldl setMonth noMonths

/-- The `DaysOfMonth` XML element: one `Day` child per integer. -/
structure DaysOfMonth where
  days : List Int
  deriving DecidableEq, Repr

/-- `convertDaysOfMonth` from the source: the empty input becomes the full
`1..31` range, otherwise the input is kept verbatim. -/
def convertDaysOfMonth (input : List Int) : DaysOfMonth :=
  if input.isEmpty then ⟨(List.range 31).map (fun i => (i : Int) + 1)⟩
  else ⟨input⟩

/-- Modelled from the spec: the `Weeks` element of
`ScheduleByMonthDayOfWeek`; its declaration is not in the shown source. -/
structure Weeks where
  first : Bool
  second : Bool
  third : Bool
  fourth : Bool
  last : Bool
  deriving DecidableEq, Repr

/-- The `AllWeeks` constant: every week of the month enabled. -/
def AllWeeks : Weeks := ⟨true, true, true, true, true⟩

/-- Modelled from the spec: `ScheduleByDay` with its `DaysInterval`. -/
structure ScheduleByDay where
  daysInterval : Int
  deriving DecidableEq, Repr

/-- Modelled from the spec: `ScheduleByWeek` with `WeeksInterval` and
`DaysOfWeek`. -/
structure ScheduleByWeek where
  weeksInterval : Int
  daysOfWeek : DaysOfWeek
  deriving DecidableEq, Repr

/-- Modelled from the spec: `ScheduleByMonth` with `DaysOfMonth` and
`Months`. -/
structure ScheduleByMonth where
  daysOfMonth : DaysOfMonth
  months : Months
  deriving DecidableEq, Repr

/-- Modelled from the spec: `ScheduleByMonthDayOfWeek` with `DaysOfWeek`,
`Weeks` and `Months`. -/
structure ScheduleByMonthDayOfWeek where
  daysOfWeek : DaysOfWeek
  weeks : Weeks
  months : Months
  deriving DecidableEq, Repr

/-- Modelled from the spec: `RepetitionPattern` with its ISO-8601 `Duration`
and `Interval` periods, kept as numbers of seconds. -/
structure RepetitionPattern where
  duration : Int
  interval : Int
  deriving DecidableEq, Repr

/-- Modelled from the spec: a `CalendarTrigger`, carrying a `StartBoundary`
and optional schedule components; the source sets exactly one schedule
component per literal. -/
structure CalendarTrigger where
  startBoundary : Int
  scheduleByDay : Option ScheduleByDay
  scheduleByWeek : Option ScheduleByWeek
  scheduleByMonth : Option ScheduleByMonth
  scheduleByMonthDayOfWeek : Option ScheduleByMonthDayOfWeek
  repetition : Option RepetitionPattern
  deriving DecidableEq, Repr

/-- Modelled from the spec: a `TimeTrigger` carrying only a
`StartBoundary`. -/
structure TimeTrigger where
  startBoundary : Int
  deriving DecidableEq, Repr

/-- Modelled from the spec: the `Triggers` element with its two disjoint
lists. -/
structure Triggers where
  timeTrigger : List TimeTrigger
  calendarTrigger : List CalendarTrigger
  deriving DecidableEq, Repr

/-- `RegistrationInfo` from the source. -/
structure RegistrationInfo where
  date : String
  author : String
  description : String
  uri : String
  securityDescriptor : String
  deriving DecidableEq, Repr

/-- Modelled from the spec: the logon type used by the builder. -/
inductive LogonType where
  | InteractiveToken : LogonType
  deriving DecidableEq, Repr

/-- Modelled from the spec: the run level used by the builder. -/
inductive RunLevel where
  | Default : RunLevel
  deriving DecidableEq, Repr

/-- Modelled from the spec: the compatibility level used by the builder. -/
inductive TaskCompatibility where
  | AT : TaskCompatibility
  deriving DecidableEq, Repr

/-- Modelled from the spec: the multiple-instances policy used by the
builder. -/
inductive MultipleInstancesPolicy where
  | IgnoreNew : MultipleInstancesPolicy
  deriving DecidableEq, Repr

/-- Modelled from the spec: the `Principal` element. -/
structure Principal where
  id : String
  userId : String
  logonType : LogonType
  runLevel : RunLevel
  deriving DecidableEq, Repr

/-- Modelled from the spec: the `Principals` element. -/
structure Principals where
  principal : Principal
  deriving DecidableEq, Repr

/-- Modelled from the spec: the `IdleSettings` element, with the two periods
as numbers of seconds. -/
structure IdleSettings where
  duration : Int
  waitTimeout : Int
  stopOnIdleEnd : Bool
  deriving DecidableEq, Repr

/-- Modelled from the spec: the `Settings` element. -/
structure Settings where
  compatibility : TaskCompatibility
  disallowStartIfOnBatteries : Bool
  idleSettings : IdleSettings
  multipleInstancesPolicy : MultipleInstancesPolicy
  priority : Int
  stopIfGoingOnBatteries : Bool
  useUnifiedSchedulingEngine : Bool
  deriving DecidableEq, Repr

/-- Modelled from the spec: one exec action (command plus arguments). -/
structure ExecAction where
  command : String
  arguments : String
  deriving DecidableEq, Repr

/-- Modelled from the spec: the `Actions` element, an execution context and
an ordered list of exec actions. -/
structure Actions where
  context : String
  exec : List ExecAction
  deriving DecidableEq, Repr

/-- `Task` from the source: the whole Windows task document. -/
structure Task where
  version : String
  xmlns : String
  registrationInfo : RegistrationInfo
  triggers : Triggers
  principals : Principals
  settings : Settings
  actions : Actions
  deriving DecidableEq, Repr

/-- Modelled from the spec: the task schema version constant; its exact
value is irrelevant to the claims. -/
def taskSchemaVersion : String := "1.2"

/-- Modelled from the spec: the fixed task schema URI constant. -/
def taskSchema : String := "http://schemas.microsoft.com/windows/2004/02/mit/task"

/-- Modelled from the spec: `constants.ApplicationName`, used as the author
and principal id string. -/
def author : String := "resticprofile"

/-- Modelled from the spec: the default process priority; its numeric value
is not in the shown source and no claim depends on it. -/
def defaultPriority : Int := 0

/-- `NewTask` from the source.  The current date string (`time.Now()`
formatted with `dateFormat`) and the current user's SID (`user.Current()`,
best effort) are environment inputs, passed as parameters. -/
def NewTask (date : String) (userID : String) : Task :=
  { version := taskSchemaVersion
    xmlns := taskSchema
    registrationInfo :=
      { date := date
        author := author
        description := ""
        uri := ""
        securityDescriptor := "" }
    triggers := { timeTrigger := [], calendarTrigger := [] }
    principals :=
      { principal :=
        { id := author
          userId := userID
          logonType := LogonType.InteractiveToken
          runLevel := RunLevel.Default } }
    settings :=
      { compatibility := TaskCompatibility.AT
        disallowStartIfOnBatteries := true
        idleSettings :=
          { duration := period_NewHMS 0 10 0
            waitTimeout := period_NewHMS 1 0 0
            stopOnIdleEnd := true }
        multipleInstancesPolicy := MultipleInstancesPolicy.IgnoreNew
        priority := defaultPriority
        stopIfGoingOnBatteries := true
        useUnifiedSchedulingEngine := true }
    actions := { context := author, exec := [] } }

/-- `addTimeTrigger`: append one `TimeTrigger` at the given instant. -/
def Task.addTimeTrigger (t : Task) (triggerOnce : Int) : Task :=
  { t with triggers :=
    { t.triggers with
      timeTrigger := t.triggers.timeTrigger ++ [{ startBoundary := triggerOnce }] } }

/-- `addCalendarTrigger`: append one `CalendarTrigger`. -/
def Task.addCalendarTrigger (t : Task) (trigger : CalendarTrigger) : Task :=
  { t with triggers :=
    { t.triggers with
      calendarTrigger := t.triggers.calendarTrigger ++ [trigger] } }

/-- The `CalendarTrigger` literal used by `addDailyTrigger`: a
`ScheduleByDay` with `DaysInterval = 1` and an optional repetition. -/
def dailyCalendarTrigger (startBoundary : Int)
    (repetition : Option RepetitionPattern) : CalendarTrigger :=
  { startBoundary := startBoundary
    scheduleByDay := some { daysInterval := 1 }
    scheduleByWeek := none
    scheduleByMonth := none
    scheduleByMonthDayOfWeek := none
    repetition := repetition }

/-- The `CalendarTrigger` literal used by `addWeeklyTrigger`: a
`ScheduleByWeek` with `WeeksInterval = 1` and the converted weekday set. -/
def weeklyCalendarTrigger (schedule : Event) (startBoundary : Int)
    (repetition : Option RepetitionPattern) : CalendarTrigger :=
  { startBoundary := startBoundary
    scheduleByDay := none
    scheduleByWeek := some
      { weeksInterval := 1
        daysOfWeek := convertWeekdays schedule.weekDayValues }
    scheduleByMonth := none
    scheduleByMonthDayOfWeek := none
    repetition := repetition }

/-- The `CalendarTrigger` literal used by `addMonthlyTrigger` when the
weekday field has a value. -/
def monthlyByWeekdayTrigger (schedule : Event) (startBoundary : Int) : CalendarTrigger :=
  { startBoundary := startBoundary
    scheduleByDay := none
    scheduleByWeek := none
    scheduleByMonth := none
    scheduleByMonthDayOfWeek := some
      { daysOfWeek := convertWeekdays schedule.weekDayValues
        weeks := AllWeeks
        months := convertMonths schedule.monthValues }
    repetition := none }

/-- The `CalendarTrigger` literal used by `addMonthlyTrigger` when the
weekday field has no value. -/
def monthlyByDayTrigger (schedule : Event) (startBoundary : Int) : CalendarTrigger :=
  { startBoundary := startBoundary
    scheduleByDay := none
    scheduleByWeek := none
    scheduleByMonth := some
      { daysOfMonth := convertDaysOfMonth schedule.dayValues
        months := convertMonths schedule.monthValues }
    scheduleByMonthDayOfWeek := none
    repetition := none }

/-- `addDailyTrigger` from the source.  `maxTriggers` is the hard trigger
cap, a constant of the package whose numeric value is not in the shown
source; it is threaded as a parameter. -/
def Task.addDailyTrigger (maxTriggers : Nat) (t : Task) (schedule : Event) :
    Task × List String :=
  let start := schedule.next
  let recurrences := schedule.recurrences
  if recurrences.isEmpty then
    (t, ["cannot convert schedule into a daily trigger"])
  else if recurrences.length = 1 then
    (t.addCalendarTrigger (dailyCalendarTrigger (recurrences.headD 0) none), [])
  else
    let compactDifferences := (compileDifferencesCore recurrences).2
    if compactDifferences.length = 1 then
      (t.addCalendarTrigger (dailyCalendarTrigger start (some
        { duration := getRepetitionDuration start recurrences
          interval := compactDifferences.headD 0 })), [])
    else if maxTriggers < recurrences.length then
      (t, ["this task would need more than maxTriggers triggers"])
    else
      (recurrences.foldl (fun task recurrence =>
        task.addCalendarTrigger (dailyCalendarTrigger recurrence none)) t, [])

/-- `addWeeklyTrigger` from the source; same shape as the daily synthesizer
with `ScheduleByWeek` triggers. -/
def Task.addWeeklyTrigger (maxTriggers : Nat) (t : Task) (schedule : Event) :
    Task × List String :=
  let start := schedule.next
  let recurrences := schedule.recurrences
  if recurrences.isEmpty then
    (t, ["cannot convert schedule into a weekly trigger"])
  else if recurrences.length = 1 then
    (t.addCalendarTrigger (weeklyCalendarTrigger schedule (recurrences.headD 0) none), [])
  else
    let compactDifferences := (compileDifferencesCore recurrences).2
    if compactDifferences.length = 1 then
      (t.addCalendarTrigger (weeklyCalendarTrigger schedule start (some
        { duration := getRepetitionDuration start recurrences
          interval := compactDifferences.headD 0 })), [])
    else if maxTriggers < recurrences.length then
      (t, ["this task would need more than maxTriggers triggers"])
    else
      (recurrences.foldl (fun task recurrence =>
        task.addCalendarTrigger (weeklyCalendarTrigger schedule recurrence none)) t, [])

/-- The per-recurrence loop of `addMonthlyTrigger`, including the in-loop
exclusivity check that aborts the whole emission with a single warning. -/
def Task.installMonthly (schedule : Event) : Task → List Int → Task × List String
  | t, [] => (t, [])
  | t, recurrence :: rest =>
    if schedule.weekDayHasValue && schedule.dayHasValue then
      (t, ["task scheduler does not support a day of the month and a day of the week in the same trigger"])
    else if schedule.weekDayHasValue then
      Task.installMonthly schedule
        (t.addCalendarTrigger (monthlyByWeekdayTrigger schedule recurrence)) rest
    else
      Task.installMonthly schedule
        (t.addCalendarTrigger (monthlyByDayTrigger schedule recurrence)) rest

/-- `addMonthlyTrigger` from the source. -/
def Task.addMonthlyTrigger (maxTriggers : Nat) (t : Task) (schedule : Event) :
    Task × List String :=
  let recurrences := schedule.recurrences
  if recurrences.isEmpty then
    (t, ["cannot convert schedule into a monthly trigger"])
  else if maxTriggers < recurrences.length then
    (t, ["this task would need more than maxTriggers triggers"])
  else
    Task.installMonthly schedule t recurrences

/-- `AddSchedules` from the source: dispatch each event on its
classification and collect the emitted warnings. -/
def Task.AddSchedules (maxTriggers : Nat) : Task → List Event → Task × List String
  | t, [] => (t, [])
  | t, schedule :: rest =>
    let step : Task × List String :=
      match schedule.asTime with
      | some triggerOnce => (t.addTimeTrigger triggerOnce, [])
      | none =>
        if schedule.isDaily then t.addDailyTrigger maxTriggers schedule
        else if schedule.isWeekly then t.addWeeklyTrigger maxTriggers schedule
        else if schedule.isMonthly then t.addMonthlyTrigger maxTriggers schedule
        else (t, ["cannot convert schedule into a task scheduler equivalent"])
    let r := Task.AddSchedules maxTriggers step.1 rest
    (r.1, step.2 ++ r.2)

/-- A sequence of `AddSchedules` calls on the same task. -/
def Task.addSchedulesSeq (maxTriggers : Nat) : Task → List (List Event) → Task × List String
  | t, [] => (t, [])
  | t, events :: rest =>
    let step := Task.AddSchedules maxTriggers t events
    let r := Task.addSchedulesSeq maxTriggers step.1 rest
    (r.1, step.2 ++ r.2)

/-- A trigger carries `DaysOfMonth` exactly when it has a `ScheduleByMonth`
component, and carries `DaysOfWeek` when it has a `ScheduleByWeek` or a
`ScheduleByMonthDayOfWeek` component; exclusivity says no trigger carries
both. -/
def CalendarTrigger.exclusiveOk (c : CalendarTrigger) : Bool :=
  !(c.scheduleByMonth.isSome &&
    (c.scheduleByWeek.isSome || c.scheduleByMonthDayOfWeek.isSome))

/-- `t2` extends `t1`: the trigger lists grow only by appending, every
appended calendar trigger satisfies the exclusivity invariant, and every
other field of the task document is unchanged. -/
def TaskExtends (t1 t2 : Task) : Prop :=
  (∃ added, t2.triggers.timeTrigger = t1.triggers.timeTrigger ++ added) ∧
  (∃ added, t2.triggers.calendarTrigger = t1.triggers.calendarTrigger ++ added ∧
    ∀ c ∈ added, CalendarTrigger.exclusiveOk c = true) ∧
  t2.version = t1.version ∧
  t2.xmlns = t1.xmlns ∧
  t2.registrationInfo = t1.registrationInfo ∧
  t2.principals = t1.principals ∧
  t2.settings = t1.settings ∧
  t2.actions = t1.actions

/-- A sample registration date string for concrete tasks. -/
def sampleDate : String := "2024-01-01T00:00:00"

/-- A sample user SID for concrete tasks. -/
def sampleUserID : String := "S-1-5-21-0"

/-- A concrete task built by `NewTask` for the witnesses. -/
def sampleTask : Task := NewTask sampleDate sampleUserID

/-- A sample daily event whose 24-hour recurrence list is irregular (two
distinct inter-arrival gaps) and longer than a cap of 2. -/
def sampleIrregularEvent : Event :=
  { asTime := none
    isDaily := true
    isWeekly := false
    isMonthly := false
    next := 0
    recurrences := [0, 60, 180]
    weekDayValues := []
    dayValues := []
    monthValues := []
    weekDayHasValue := false
    dayHasValue := false }

/-- A sample daily event whose 24-hour recurrence list is the arithmetic
progression `0, 3600, 7200`. -/
def sampleUniformEvent : Event :=
  { asTime := none
    isDaily := true
    isWeekly := false
    isMonthly := false
    next := 0
    recurrences := [0, 3600, 7200]
    weekDayValues := [1]
    dayValues := []
    monthValues := []
    weekDayHasValue := true
    dayHasValue := false }

/-- A sample monthly event carrying both a day-of-month and a weekday
value. -/
def sampleBothEvent : Event :=
  { asTime := none
    isDaily := false
    isWeekly := false
    isMonthly := true
    next := 0
    recurrences := [0]
    weekDayValues := [1]
    dayValues := [15]
    monthValues := []
    weekDayHasValue := true
    dayHasValue := true }

theorem taskExtends_refl (t : Task) : TaskExtends t t := by
  refine ⟨⟨[], ?_⟩, ⟨[], ?_, ?_⟩, rfl, rfl, rfl, rfl, rfl, rfl⟩ <;> simp

theorem taskExtends_trans {t1 t2 t3 : Task}
    (h12 : TaskExtends t1 t2) (h23 : TaskExtends t2 t3) : TaskExtends t1 t3 := by
  obtain ⟨⟨a1, ha1⟩, ⟨b1, hb1, hb1ok⟩, hv1, hx1, hr1, hp1, hs1, hc1⟩ := h12
  obtain ⟨⟨a2, ha2⟩, ⟨b2, hb2, hb2ok⟩, hv2, hx2, hr2, hp2, hs2, hc2⟩ := h23
  refine ⟨⟨a1 ++ a2, ?_⟩, ⟨b1 ++ b2, ?_, ?_⟩, ?_, ?_, ?_, ?_, ?_, ?_⟩
  · rw [ha2, ha1, List.append_assoc]
  · rw [hb2, hb1, List.append_assoc]
  · intro c hc
    rcases List.mem_append.mp hc with h | h
    · exact hb1ok c h
    · exact hb2ok c h
  · rw [hv2, hv1]
  · rw [hx2, hx1]
  · rw [hr2, hr1]
  · rw [hp2, hp1]
  · rw [hs2, hs1]
  · rw [hc2, hc1]

theorem addTimeTrigger_extends (t : Task) (triggerOnce : Int) :
    TaskExtends t (t.addTimeTrigger triggerOnce) := by
  refine ⟨⟨[{ startBoundary := triggerOnce }], rfl⟩, ⟨[], by simp [Task.addTimeTrigger], ?_⟩,
    rfl, rfl, rfl, rfl, rfl, rfl⟩
  intro c hc
  simp at hc

theorem addCalendarTrigger_extends (t : Task) (trigger : CalendarTrigger)
    (h : CalendarTrigger.exclusiveOk trigger = true) :
    TaskExtends t (t.addCalendarTrigger trigger) := by
  refine ⟨⟨[], by simp [Task.addCalendarTrigger]⟩, ⟨[trigger], rfl, ?_⟩,
    rfl, rfl, rfl, rfl, rfl, rfl⟩
  intro c hc
  rw [List.mem_singleton.mp hc]
  exact h

theorem dailyCalendarTrigger_exclusiveOk (startBoundary : Int)
    (repetition : Option RepetitionPattern) :
    CalendarTrigger.exclusiveOk (dailyCalendarTrigger startBoundary repetition) = true := rfl

theorem weeklyCalendarTrigger_exclusiveOk (schedule : Event) (startBoundary : Int)
    (repetition : Option RepetitionPattern) :
    CalendarTrigger.exclusiveOk (weeklyCalendarTrigger schedule startBoundary repetition) = true := rfl

theorem monthlyByWeekdayTrigger_exclusiveOk (schedule : Event) (startBoundary : Int) :
    CalendarTrigger.exclusiveOk (monthlyByWeekdayTrigger schedule startBoundary) = true := rfl

theorem monthlyByDayTrigger_exclusiveOk (schedule : Event) (startBoundary : Int) :
    CalendarTrigger.exclusiveOk (monthlyByDayTrigger schedule startBoundary) = true := rfl

theorem foldl_addCalendarTrigger_extends (f : Int → CalendarTrigger)
    (hf : ∀ r, CalendarTrigger.exclusiveOk (f r) = true) :
    ∀ (rs : List Int) (t : Task),
      TaskExtends t (rs.foldl (fun task r => task.addCalendarTrigger (f r)) t)
  | [], t => taskExtends_refl t
  | r :: rs, t => by
    rw [List.foldl_cons]
    exact taskExtends_trans (addCalendarTrigger_extends t (f r) (hf r))
      (foldl_addCalendarTrigger_extends f hf rs (t.addCalendarTrigger (f r)))

theorem addDailyTrigger_extends (maxTriggers : Nat) (t : Task) (schedule : Event) :
    TaskExtends t (Task.addDailyTrigger maxTriggers t schedule).1 := by
  unfold Task.addDailyTrigger
  dsimp only
  split_ifs
  · exact taskExtends_refl t
  · exact addCalendarTrigger_extends t _ (dailyCalendarTrigger_exclusiveOk _ _)
  · exact addCalendarTrigger_extends t _ (dailyCalendarTrigger_exclusiveOk _ _)
  · exact taskExtends_refl t
  · exact foldl_addCalendarTrigger_extends _ (fun r => dailyCalendarTrigger_exclusiveOk r none)
      schedule.recurrences t

theorem addWeeklyTrigger_extends (maxTriggers : Nat) (t : Task) (schedule : Event) :
    TaskExtends t (Task.addWeeklyTrigger maxTriggers t schedule).1 := by
  unfold Task.addWeeklyTrigger
  dsimp only
  split_ifs
  · exact taskExtends_refl t
  · exact addCalendarTrigger_extends t _ (weeklyCalendarTrigger_exclusiveOk _ _ _)
  · exact addCalendarTrigger_extends t _ (weeklyCalendarTrigger_exclusiveOk _ _ _)
  · exact taskExtends_refl t
  · exact foldl_addCalendarTrigger_extends _
      (fun r => weeklyCalendarTrigger_exclusiveOk schedule r none)
      schedule.recurrences t

theorem installMonthly_extends (schedule : Event) :
    ∀ (rs : List Int) (t : Task), TaskExtends t (Task.installMonthly schedule t rs).1
  | [], t => taskExtends_refl t
  | r :: rs, t => by
    unfold Task.installMonthly
    split_ifs
    · exact taskExtends_refl t
    · exact taskExtends_trans
        (addCalendarTrigger_extends t _ (monthlyByWeekdayTrigger_exclusiveOk schedule r))
        (installMonthly_extends schedule rs _)
    · exact taskExtends_trans
        (addCalendarTrigger_extends t _ (monthlyByDayTrigger_exclusiveOk schedule r))
        (installMonthly_extends schedule rs _)

theorem addMonthlyTrigger_extends (maxTriggers : Nat) (t : Task) (schedule : Event) :
    TaskExtends t (Task.addMonthlyTrigger maxTriggers t schedule).1 := by
  unfold Task.addMonthlyTrigger
  dsimp only
  split_ifs
  · exact taskExtends_refl t
  · exact taskExtends_refl t
  · exact installMonthly_extends schedule schedule.recurrences t

theorem addSchedules_extends (maxTriggers : Nat) :
    ∀ (events : List Event) (t : Task),
      TaskExtends t (Task.AddSchedules maxTriggers t events).1
  | [], t => taskExtends_refl t
  | schedule :: rest, t => by
    have hrec := addSchedules_extends maxTriggers rest
    unfold Task.AddSchedules
    dsimp only
    cases schedule.asTime with
    | some triggerOnce =>
      exact taskExtends_trans (addTimeTrigger_extends t triggerOnce) (hrec _)
    | none =>
      dsimp only
      refine taskExtends_trans ?_ (hrec _)
      split_ifs
      · exact addDailyTrigger_extends maxTriggers t schedule
      · exact addWeeklyTrigger_extends maxTriggers t schedule
      · exact addMonthlyTrigger_extends maxTriggers t schedule
      · exact taskExtends_refl t

theorem addSchedulesSeq_extends (maxTriggers : Nat) :
    ∀ (seqs : List (List Event)) (t : Task),
      TaskExtends t (Task.addSchedulesSeq maxTriggers t seqs).1
  | [], t => taskExtends_refl t
  | events :: rest, t => by
    unfold Task.addSchedulesSeq
    exact taskExtends_trans (addSchedules_extends maxTriggers events t)
      (addSchedulesSeq_extends maxTriggers rest _)

theorem differencesOf_length : ∀ l : List Int, (differencesOf l).length = l.length - 1
  | [] => rfl
  | [_] => rfl
  | a :: b :: rest => by
    show ((b - a) :: differencesOf (b :: rest)).length = (a :: b :: rest).length - 1
    simp [differencesOf_length (b :: rest)]

theorem compactOf_length_le : ∀ (l : List Int) (p : Int), (compactOf l p).length ≤ l.length
  | [], _ => Nat.le_refl 0
  | d :: rest, p => by
    unfold compactOf
    split_ifs
    · exact Nat.le_succ_of_le (compactOf_length_le rest p)
    · simpa using Nat.succ_le_succ (compactOf_length_le rest d)

theorem compactOf_eq_nil_iff : ∀ (l : List Int) (p : Int),
    compactOf l p = [] ↔ ∀ x ∈ l, x = p
  | [], p => by simp [compactOf]
  | d :: rest, p => by
    unfold compactOf
    split_ifs with h
    · subst h
      rw [compactOf_eq_nil_iff rest d]
      constructor
      · intro hall x hx
        rcases List.mem_cons.mp hx with h | h
        · exact h
        · exact hall x h
      · intro hall x hx
        exact hall x (List.mem_cons_of_mem d hx)
    · constructor
      · intro hcons
        simp at hcons
      · intro hall
        exact absurd (hall d (List.mem_cons_self d rest)) h

theorem differencesOf_pos : ∀ l : List Int, List.Chain' (· < ·) l →
    ∀ x ∈ differencesOf l, 0 < x
  | [], _, x, hx => by simp [differencesOf] at hx
  | [_], _, x, hx => by simp [differencesOf] at hx
  | a :: b :: rest, hchain, x, hx => by
    rw [List.chain'_cons] at hchain
    have hx' : x = b - a ∨ x ∈ differencesOf (b :: rest) := by
      simpa [differencesOf] using hx
    rcases hx' with h | h
    · subst h
      exact Int.sub_pos.mpr hchain.1
    · exact differencesOf_pos (b :: rest) hchain.2 x h

/-- The arithmetic progression `a, a + d, a + 2d, …` of the given length —
the canonical form of a strictly ascending recurrence list whose adjacent
differences are all equal. -/
def arithmeticList (a d : Int) : Nat → List Int
  | 0 => []
  | n + 1 => a :: arithmeticList (a + d) d n

theorem arithmeticList_length (d : Int) :
    ∀ (n : Nat) (a : Int), (arithmeticList a d n).length = n
  | 0, _ => rfl
  | n + 1, a => by
    show (arithmeticList a d (n + 1)).length = n + 1
    unfold arithmeticList
    simp [arithmeticList_length d n]

theorem differencesOf_arithmeticList (d : Int) :
    ∀ (n : Nat) (a : Int),
      differencesOf (arithmeticList a d n) = List.replicate (n - 1) d
  | 0, _ => rfl
  | 1, _ => rfl
  | n + 2, a => by
    show differencesOf (a :: arithmeticList (a + d) d (n + 1)) = List.replicate (n + 1) d
    rw [show arithmeticList (a + d) d (n + 1) = (a + d) :: arithmeticList (a + d + d) d n from rfl]
    show (a + d - a) :: differencesOf ((a + d) :: arithmeticList (a + d + d) d n) =
      List.replicate (n + 1) d
    rw [show (a + d) :: arithmeticList (a + d + d) d n = arithmeticList (a + d) d (n + 1) from rfl]
    rw [differencesOf_arithmeticList d (n + 1) (a + d)]
    simp [List.replicate_succ]

theorem arithmeticList_getLastD (d : Int) :
    ∀ (n : Nat) (a x : Int), 1 ≤ n →
      (arithmeticList a d n).getLastD x = a + (n - 1 : Nat) * d
  | 1, a, x, _ => by
    show ([a] : List Int).getLastD x = a + (0 : Nat) * d
    simp
  | n + 2, a, x, _ => by
    show ((a :: arithmeticList (a + d) d (n + 1)).getLastD x) = a + ((n + 1 : Nat) : Int) * d
    rw [List.getLastD_cons]
    rw [arithmeticList_getLastD d (n + 1) (a + d) a (Nat.le_add_left 1 n)]
    push_cast
    ring

theorem compactOf_replicate_self (d : Int) :
    ∀ k : Nat, compactOf (List.replicate k d) d = []
  | 0 => rfl
  | k + 1 => by
    rw [List.replicate_succ]
    unfold compactOf
    rw [if_pos rfl]
    exact compactOf_replicate_self d k

theorem compactOf_replicate_zero (d : Int) (hd : d ≠ 0) (k : Nat) :
    compactOf (List.replicate (k + 1) d) 0 = [d] := by
  rw [List.replicate_succ]
  unfold compactOf
  rw [if_neg hd]
  rw [compactOf_replicate_self d k]

theorem compileDifferencesCore_arithmeticList (a d : Int) (m : Nat) (hd : d ≠ 0) :
    (compileDifferencesCore (arithmeticList a d (m + 2))).2 = [d] := by
  unfold compileDifferencesCore
  rw [differencesOf_arithmeticList d (m + 2) a]
  exact compactOf_replicate_zero d hd m

theorem getRepetitionDuration_ge (start a d : Int) (n : Nat)
    (hd : 0 < d) (hn : 2 ≤ n) (hwin : start ≤ a) :
    d ≤ getRepetitionDuration start (arithmeticList a d n) := by
  have hlast : (arithmeticList a d n).getLastD 0 = a + (n - 1 : Nat) * d :=
    arithmeticList_getLastD d n a 0 (Nat.one_le_of_lt hn)
  have h1 : (1 : Int) ≤ ((n - 1 : Nat) : Int) := by
    have : 1 ≤ n - 1 := by omega
    exact_mod_cast this
  have hcore : d ≤ a + (n - 1 : Nat) * d - start := by
    have hmul : d ≤ ((n - 1 : Nat) : Int) * d := le_mul_of_one_le_left hd.le h1
    linarith
  unfold getRepetitionDuration
  dsimp only
  rw [hlast]
  split_ifs with h
  · rw [h] at hcore
    unfold period_NewHMS
    linarith
  · exact hcore

theorem addDailyTrigger_uniform (maxTriggers : Nat) (t : Task) (schedule : Event)
    (a d : Int) (m : Nat)
    (hrec : schedule.recurrences = arithmeticList a d (m + 2)) (hd : d ≠ 0) :
    Task.addDailyTrigger maxTriggers t schedule =
      (t.addCalendarTrigger (dailyCalendarTrigger schedule.next (some
        { duration := getRepetitionDuration schedule.next schedule.recurrences
          interval := d })), []) := by
  have hlen : schedule.recurrences.length = m + 2 := by
    rw [hrec]; exact arithmeticList_length d (m + 2) a
  have hcompact : (compileDifferencesCore schedule.recurrences).2 = [d] := by
    rw [hrec]; exact compileDifferencesCore_arithmeticList a d m hd
  have hne : schedule.recurrences.isEmpty = false := by
    rw [hrec]; rfl
  unfold Task.addDailyTrigger
  dsimp only
  rw [hne]
  rw [if_neg (by simp)]
  rw [if_neg (by rw [hlen]; omega)]
  rw [hcompact]
  simp

theorem addWeeklyTrigger_uniform (maxTriggers : Nat) (t : Task) (schedule : Event)
    (a d : Int) (m : Nat)
    (hrec : schedule.recurrences = arithmeticList a d (m + 2)) (hd : d ≠ 0) :
    Task.addWeeklyTrigger maxTriggers t schedule =
      (t.addCalendarTrigger (weeklyCalendarTrigger schedule schedule.next (some
        { duration := getRepetitionDuration schedule.next schedule.recurrences
          interval := d })), []) := by
  have hlen : schedule.recurrences.length = m + 2 := by
    rw [hrec]; exact arithmeticList_length d (m + 2) a
  have hcompact : (compileDifferencesCore schedule.recurrences).2 = [d] := by
    rw [hrec]; exact compileDifferencesCore_arithmeticList a d m hd
  have hne : schedule.recurrences.isEmpty = false := by
    rw [hrec]; rfl
  unfold Task.addWeeklyTrigger
  dsimp only
  rw [hne]
  rw [if_neg (by simp)]
  rw [if_neg (by rw [hlen]; omega)]
  rw [hcompact]
  simp

theorem addMonthlyTrigger_bothValues (maxTriggers : Nat) (t : Task) (schedule : Event)
    (hw : schedule.weekDayHasValue = true) (hd : schedule.dayHasValue = true) :
    (Task.addMonthlyTrigger maxTriggers t schedule).1 = t ∧
    (Task.addMonthlyTrigger maxTriggers t schedule).2.length = 1 := by
  unfold Task.addMonthlyTrigger
  dsimp only
  split_ifs with h1 h2
  · exact ⟨rfl, rfl⟩
  · exact ⟨rfl, rfl⟩
  · have hne : schedule.recurrences ≠ [] := by
      intro hnil
      rw [hnil] at h1
      exact h1 rfl
    obtain ⟨r, rest, hr⟩ := List.exists_cons_of_ne_nil hne
    rw [hr]
    unfold Task.installMonthly
    rw [if_pos (by rw [hw, hd]; rfl)]
    exact ⟨rfl, rfl⟩

theorem foldl_setWeekday : ∀ (l : List Int) (w : DaysOfWeek),
    l.foldl setWeekday w =
      { sunday := w.sunday || (l.contains 0 || l.contains 7)
        monday := w.monday || l.contains 1
        tuesday := w.tuesday || l.contains 2
        wednesday := w.wednesday || l.contains 3
        thursday := w.thursday || l.contains 4
        friday := w.friday || l.contains 5
        saturday := w.saturday || l.contains 6 }
  | [], w => by cases w; simp
  | x :: xs, w => by
    rw [List.foldl_cons, foldl_setWeekday xs]
    unfold setWeekday
    split_ifs with h1 h2 h3 h4 h5 h6 h7
    · rcases h1 with h | h <;> subst h <;> cases w <;> simp [List.contains_cons]
    · subst h2
      cases w
      push_neg at h1
      have e0 : ((0 : Int) == 1) = false := by decide
      simp [List.contains_cons, e0]
    · subst h3
      cases w
      simp [List.contains_cons]
    · subst h4
      cases w
      simp [List.contains_cons]
    · subst h5
      cases w
      simp [List.contains_cons]
    · subst h6
      cases w
      simp [List.contains_cons]
    · subst h7
      cases w
      simp [List.contains_cons]
    · cases w
      push_neg at h1
      have e0 : decide ((0 : Int) = x) = false := decide_eq_false (Ne.symm h1.1)
      have e7 : decide ((7 : Int) = x) = false := decide_eq_false (Ne.symm h1.2)
      have e1 : decide ((1 : Int) = x) = false := decide_eq_false (Ne.symm h2)
      have e2 : decide ((2 : Int) = x) = false := decide_eq_false (Ne.symm h3)
      have e3 : decide ((3 : Int) = x) = false := decide_eq_false (Ne.symm h4)
      have e4 : decide ((4 : Int) = x) = false := decide_eq_false (Ne.symm h5)
      have e5 : decide ((5 : Int) = x) = false := decide_eq_false (Ne.symm h6)
      have e6 : decide ((6 : Int) = x) = false := decide_eq_false (Ne.symm h7)
      simp [List.contains_cons, e0, e7, e1, e2, e3, e4, e5, e6]

/-- Claim C8: `convertWeekdays` maps the empty list to the empty weekday
set, maps `0` and `7` to Sunday and `1`..`6` to Monday..Saturday, and drops
every other value; the output depends only on which of those values occur in
the input list. -/
theorem convertWeekdays_membership (input : List Int) :
    convertWeekdays input =
      { sunday := input.contains 0 || input.contains 7
        monday := input.contains 1
        tuesday := input.contains 2
        wednesday := input.contains 3
        thursday := input.contains 4
        friday := input.contains 5
        saturday := input.contains 6 } := by
  unfold convertWeekdays
  split_ifs with h
  · have hnil : input = [] := by simpa using h
    subst hnil
    rfl
  · rw [foldl_setWeekday]
    simp [noWeekDays]

/-- Claim C3, counterexample: on the empty list `compileDifferences` does
not return a pair of empty lists — Go panics allocating a slice of length
`-1` (`make([]time.Duration, -1)`), modelled as `none`. -/
theorem compileDifferences_empty_fails :
    compileDifferences ([] : List Int) = none := rfl

/-- Claim C3, amended: `compileDifferences` is deterministic (a pure
function of its input); on every single-element list it returns a pair of
empty lists; on the empty list it fails instead of returning. -/
theorem compileDifferences_small_inputs (x : Int) :
    compileDifferences [x] = some ([], []) ∧
    compileDifferences ([] : List Int) = none :=
  ⟨rfl, rfl⟩

/-- Claim C7: over a non-empty recurrence list whose first instant is the
repetition start (which holds for the uniform case, since the recurrence
window starts at the event's next firing), the emitted repetition duration
is the last instant minus the first instant, except that a span of exactly
1439 minutes is promoted to 1440 minutes via `period.NewHMS(0, 1440, 0)`. -/
theorem getRepetitionDuration_span (start : Int) (recurrences : List Int)
    (hne : recurrences ≠ []) (hstart : recurrences.headD 0 = start) :
    getRepetitionDuration start recurrences =
      (if recurrences.getLastD 0 - recurrences.headD 0 = 1439 * 60
        then period_NewHMS 0 1440 0
        else recurrences.getLastD 0 - recurrences.headD 0) := by
  have : recurrences ≠ [] := hne
  rw [hstart]
  rfl

/-- Witness for claim C7 at a concrete input exercising the promotion: a
span of 86340 seconds (1439 minutes) becomes 86400 seconds. -/
theorem getRepetitionDuration_span_witness :
    getRepetitionDuration 5 [5, 86345] =
      (if ([5, 86345] : List Int).getLastD 0 - ([5, 86345] : List Int).headD 0 = 1439 * 60
        then period_NewHMS 0 1440 0
        else ([5, 86345] : List Int).getLastD 0 - ([5, 86345] : List Int).headD 0) :=
  getRepetitionDuration_span 5 [5, 86345] (by decide) rfl

theorem loadSchedules_cons (analyzer : String → Nat) (s : String) (rest : List String) :
    loadSchedules analyzer (s :: rest) =
      (if s = "" then ([], [], some ScheduleError.emptySchedule)
       else if analyzer s = 0 then
         ((loadSchedules analyzer rest).1,
          s :: (loadSchedules analyzer rest).2.1,
          (loadSchedules analyzer rest).2.2)
       else ([], [s], some (ScheduleError.exitError (analyzer s)))) := rfl

theorem loadSchedules_events_nil (analyzer : String → Nat) :
    ∀ schedules : List String, (loadSchedules analyzer schedules).1 = []
  | [] => rfl
  | s :: rest => by
    rw [loadSchedules_cons]
    split_ifs
    · rfl
    · exact loadSchedules_events_nil analyzer rest
    · rfl

theorem loadSchedules_append_pass (analyzer : String → Nat) :
    ∀ (pre rest : List String), (∀ s ∈ pre, s ≠ "" ∧ analyzer s = 0) →
      loadSchedules analyzer (pre ++ rest) =
        ((loadSchedules analyzer rest).1,
         pre ++ (loadSchedules analyzer rest).2.1,
         (loadSchedules analyzer rest).2.2)
  | [], rest, _ => rfl
  | p :: pre, rest, hpre => by
    have hp := hpre p (List.mem_cons_self p pre)
    have hrec := loadSchedules_append_pass analyzer pre rest
      (fun s hs => hpre s (List.mem_cons_of_mem p hs))
    show loadSchedules analyzer (p :: (pre ++ rest)) = _
    rw [loadSchedules_cons]
    rw [if_neg hp.1]
    rw [if_pos hp.2]
    rw [hrec]
    simp

/-- Claim C9: `loadSchedules` rejects an empty schedule string with the
empty-schedule error, without invoking the analyzer for that entry or any
later one (the instrumented invocation list is exactly the earlier
schedules), and the event list it returns is always empty. -/
theorem loadSchedules_empty_rejection (analyzer : String → Nat)
    (schedules pre post : List String)
    (hsplit : schedules = pre ++ "" :: post)
    (hpre : ∀ s ∈ pre, s ≠ "" ∧ analyzer s = 0) :
    (∀ other : List String, (loadSchedules analyzer other).1 = []) ∧
    loadSchedules analyzer schedules = ([], pre, some ScheduleError.emptySchedule) := by
  refine ⟨loadSchedules_events_nil analyzer, ?_⟩
  subst hsplit
  rw [loadSchedules_append_pass analyzer pre ("" :: post) hpre]
  have h0 : loadSchedules analyzer ("" :: post) = ([], [], some ScheduleError.emptySchedule) := by
    rw [loadSchedules_cons]
    rw [if_pos rfl]
  rw [h0]
  simp

/-- Witness for claim C9: with an always-succeeding analyzer and schedules
`["a", "", "b"]`, the run analyzes only `"a"` and stops with the
empty-schedule error. -/
theorem loadSchedules_empty_rejection_witness :
    loadSchedules (fun _ => 0) ["a", "", "b"] = ([], ["a"], some ScheduleError.emptySchedule) :=
  (loadSchedules_empty_rejection (fun _ => 0) ["a", "", "b"] ["a"] ["b"] rfl
    (by
      intro s hs
      rw [List.mem_singleton] at hs
      subst hs
      exact ⟨by decide, rfl⟩)).2

/-- Claim C4, counterexample: the same analyzer error is returned whether
the offending schedule sits at index 0 or at index 1, so the returned error
does not preserve the index of the offending schedule (Go returns the
`cmd.Run()` error unchanged; the index appears only in progress output). -/
theorem loadSchedules_error_drops_index :
    loadSchedules (fun x => if x = "ok" then 0 else 1) ["x"] =
      ([], ["x"], some (ScheduleError.exitError 1)) ∧
    loadSchedules (fun x => if x = "ok" then 0 else 1) ["ok", "x"] =
      ([], ["ok", "x"], some (ScheduleError.exitError 1)) :=
  ⟨rfl, rfl⟩

/-- Claim C4, amended: the emitter invokes the analyzer on each schedule in
order, stops at the first non-zero exit code and returns that analyzer error
unchanged; the offending index is not encoded in the returned error. -/
theorem loadSchedules_first_failure (analyzer : String → Nat)
    (pre post : List String) (s : String) (c : Nat)
    (hpre : ∀ x ∈ pre, x ≠ "" ∧ analyzer x = 0)
    (hs : s ≠ "") (hc : analyzer s = c) (hcz : c ≠ 0) :
    loadSchedules analyzer (pre ++ s :: post) =
      ([], pre ++ [s], some (ScheduleError.exitError c)) := by
  rw [loadSchedules_append_pass analyzer pre (s :: post) hpre]
  have h0 : loadSchedules analyzer (s :: post) =
      ([], [s], some (ScheduleError.exitError c)) := by
    rw [loadSchedules_cons]
    rw [if_neg hs]
    rw [hc]
    rw [if_neg hcz]
  rw [h0]

/-- Witness for the amended claim C4: the analyzer passes `"ok"`, fails
`"x"` with exit code 1; the run analyzes `"ok"` then `"x"`, never `"y"`,
and returns the bare exit error. -/
theorem loadSchedules_first_failure_witness :
    loadSchedules (fun x => if x = "ok" then 0 else 1) (["ok"] ++ "x" :: ["y"]) =
      ([], ["ok"] ++ ["x"], some (ScheduleError.exitError 1)) :=
  loadSchedules_first_failure (fun x => if x = "ok" then 0 else 1) ["ok"] ["y"] "x" 1
    (by
      intro x hx
      rw [List.mem_singleton] at hx
      subst hx
      exact ⟨by decide, rfl⟩)
    (by decide) rfl (by decide)

/-- Claim C2: for an event whose 24-hour recurrence list is irregular (at
least two distinct inter-arrival gaps) and longer than `maxTriggers`, each
of the daily, weekly and monthly trigger synthesizers leaves the task
unchanged (adds zero triggers) and records exactly one warning. -/
theorem trigger_cap_warns (maxTriggers : Nat) (t : Task) (schedule : Event)
    (hIrr : 2 ≤ (compileDifferencesCore schedule.recurrences).2.length)
    (hCap : maxTriggers < schedule.recurrences.length) :
    ((Task.addDailyTrigger maxTriggers t schedule).1 = t ∧
      (Task.addDailyTrigger maxTriggers t schedule).2.length = 1) ∧
    ((Task.addWeeklyTrigger maxTriggers t schedule).1 = t ∧
      (Task.addWeeklyTrigger maxTriggers t schedule).2.length = 1) ∧
    ((Task.addMonthlyTrigger maxTriggers t schedule).1 = t ∧
      (Task.addMonthlyTrigger maxTriggers t schedule).2.length = 1) := by
  have hdiff : (compileDifferencesCore schedule.recurrences).2.length ≤
      schedule.recurrences.length - 1 := by
    unfold compileDifferencesCore
    calc (compactOf (differencesOf schedule.recurrences) 0).length
        ≤ (differencesOf schedule.recurrences).length := compactOf_length_le _ 0
      _ = schedule.recurrences.length - 1 := differencesOf_length _
  have hlen3 : 3 ≤ schedule.recurrences.length := by omega
  have hne : schedule.recurrences.isEmpty = false := by
    cases h : schedule.recurrences with
    | nil => rw [h] at hlen3; simp at hlen3
    | cons a l => rfl
  refine ⟨?_, ?_, ?_⟩
  · unfold Task.addDailyTrigger
    dsimp only
    rw [hne]
    rw [if_neg (by simp)]
    rw [if_neg (by omega : ¬schedule.recurrences.length = 1)]
    rw [if_neg (by omega : ¬(compileDifferencesCore schedule.recurrences).2.length = 1)]
    rw [if_pos hCap]
    exact ⟨rfl, rfl⟩
  · unfold Task.addWeeklyTrigger
    dsimp only
    rw [hne]
    rw [if_neg (by simp)]
    rw [if_neg (by omega : ¬schedule.recurrences.length = 1)]
    rw [if_neg (by omega : ¬(compileDifferencesCore schedule.recurrences).2.length = 1)]
    rw [if_pos hCap]
    exact ⟨rfl, rfl⟩
  · unfold Task.addMonthlyTrigger
    dsimp only
    rw [hne]
    rw [if_neg (by simp)]
    rw [if_pos hCap]
    exact ⟨rfl, rfl⟩

/-- Witness for claim C2: the sample irregular event has recurrences
`[0, 60, 180]` (gaps 60 and 120) and exceeds a cap of 2; all three
synthesizers leave the fresh task unchanged with one warning each. -/
theorem trigger_cap_warns_witness :
    ((Task.addDailyTrigger 2 sampleTask sampleIrregularEvent).1 = sampleTask ∧
      (Task.addDailyTrigger 2 sampleTask sampleIrregularEvent).2.length = 1) ∧
    ((Task.addWeeklyTrigger 2 sampleTask sampleIrregularEvent).1 = sampleTask ∧
      (Task.addWeeklyTrigger 2 sampleTask sampleIrregularEvent).2.length = 1) ∧
    ((Task.addMonthlyTrigger 2 sampleTask sampleIrregularEvent).1 = sampleTask ∧
      (Task.addMonthlyTrigger 2 sampleTask sampleIrregularEvent).2.length = 1) :=
  trigger_cap_warns 2 sampleTask sampleIrregularEvent (by decide) (by decide)

/-- Claim C6: for a strictly ascending list of at least two instants,
`compileDifferences` succeeds; the compacted list keeps the first
difference as its own first element (the scan starts from `previous = 0`,
which no positive difference equals), is never empty, and is a singleton
exactly when all inter-arrival differences are equal. -/
theorem compileDifferences_compact_spec (l : List Int)
    (hchain : List.Chain' (· < ·) l) (hlen : 2 ≤ l.length) :
    ∃ diffs compact, compileDifferences l = some (diffs, compact) ∧
      1 ≤ compact.length ∧
      compact.headD 0 = diffs.headD 0 ∧
      (compact.length = 1 ↔ ∀ x ∈ diffs, ∀ y ∈ diffs, x = y) := by
  obtain ⟨a, b, rest, hl⟩ : ∃ a b rest, l = a :: b :: rest := by
    cases l with
    | nil => simp at hlen
    | cons a l' =>
      cases l' with
      | nil => simp at hlen
      | cons b rest => exact ⟨a, b, rest, rfl⟩
  subst hl
  have hpos := differencesOf_pos (a :: b :: rest) hchain
  have hdiffs : differencesOf (a :: b :: rest) = (b - a) :: differencesOf (b :: rest) := rfl
  have hba : (0 : Int) < b - a :=
    hpos (b - a) (by rw [hdiffs]; exact List.mem_cons_self _ _)
  have hcompact : compactOf ((b - a) :: differencesOf (b :: rest)) 0 =
      (b - a) :: compactOf (differencesOf (b :: rest)) (b - a) := by
    show (if (b - a) = 0 then compactOf (differencesOf (b :: rest)) 0
      else (b - a) :: compactOf (differencesOf (b :: rest)) (b - a)) = _
    rw [if_neg (by omega : ¬(b - a) = 0)]
  refine ⟨(b - a) :: differencesOf (b :: rest),
    (b - a) :: compactOf (differencesOf (b :: rest)) (b - a), ?_, ?_, ?_, ?_⟩
  · show some (compileDifferencesCore (a :: b :: rest)) = _
    unfold compileDifferencesCore
    rw [hdiffs, hcompact]
  · simp
  · simp
  · rw [List.length_cons]
    constructor
    · intro h1
      have hnil : compactOf (differencesOf (b :: rest)) (b - a) = [] :=
        List.length_eq_zero.mp (by omega)
      have hall := (compactOf_eq_nil_iff (differencesOf (b :: rest)) (b - a)).mp hnil
      intro x hx y hy
      have hx' : x = b - a := by
        rcases List.mem_cons.mp hx with h | h
        · exact h
        · exact hall x h
      have hy' : y = b - a := by
        rcases List.mem_cons.mp hy with h | h
        · exact h
        · exact hall y h
      rw [hx', hy']
    · intro hall
      have hrest : ∀ x ∈ differencesOf (b :: rest), x = b - a := fun x hx =>
        hall x (List.mem_cons_of_mem _ hx) (b - a) (List.mem_cons_self _ _)
      rw [(compactOf_eq_nil_iff (differencesOf (b :: rest)) (b - a)).mpr hrest]
      rfl

/-- Witness for claim C6 at the list `[0, 60, 120]`: differences `[60, 60]`
compact to `[60]`. -/
theorem compileDifferences_compact_spec_witness :
    ∃ diffs compact, compileDifferences [0, 60, 120] = some (diffs, compact) ∧
      1 ≤ compact.length ∧
      compact.headD 0 = diffs.headD 0 ∧
      (compact.length = 1 ↔ ∀ x ∈ diffs, ∀ y ∈ diffs, x = y) :=
  compileDifferences_compact_spec [0, 60, 120] (by simp [List.chain'_cons]) (by decide)

/-- Claim C5: for a 24-hour recurrence list that is strictly ascending with
equal adjacent differences (an arithmetic progression with positive step,
starting no earlier than the event's next firing) and at least two
elements, the daily and weekly synthesizers emit a single trigger whose
repetition pattern has a strictly positive interval that is at most the
duration. -/
theorem repetition_interval_bounds (maxTriggers : Nat) (t : Task) (schedule : Event)
    (a d : Int) (n : Nat)
    (hrec : schedule.recurrences = arithmeticList a d n)
    (hd : 0 < d) (hn : 2 ≤ n) (hwin : schedule.next ≤ a) :
    (∃ dur,
      (Task.addDailyTrigger maxTriggers t schedule).1.triggers.calendarTrigger =
        t.triggers.calendarTrigger ++
          [dailyCalendarTrigger schedule.next (some { duration := dur, interval := d })] ∧
      0 < d ∧ d ≤ dur) ∧
    (∃ dur,
      (Task.addWeeklyTrigger maxTriggers t schedule).1.triggers.calendarTrigger =
        t.triggers.calendarTrigger ++
          [weeklyCalendarTrigger schedule schedule.next
            (some { duration := dur, interval := d })] ∧
      0 < d ∧ d ≤ dur) := by
  obtain ⟨m, rfl⟩ : ∃ m, n = m + 2 := ⟨n - 2, by omega⟩
  have hdne : d ≠ 0 := hd.ne'
  have hge : d ≤ getRepetitionDuration schedule.next schedule.recurrences := by
    rw [hrec]
    exact getRepetitionDuration_ge schedule.next a d (m + 2) hd (by omega) hwin
  constructor
  · refine ⟨getRepetitionDuration schedule.next schedule.recurrences, ?_, hd, hge⟩
    rw [addDailyTrigger_uniform maxTriggers t schedule a d m hrec hdne]
    rfl
  · refine ⟨getRepetitionDuration schedule.next schedule.recurrences, ?_, hd, hge⟩
    rw [addWeeklyTrigger_uniform maxTriggers t schedule a d m hrec hdne]
    rfl

/-- Witness for claim C5 at the sample uniform event (recurrences
`[0, 3600, 7200]`, step one hour). -/
theorem repetition_interval_bounds_witness :
    (∃ dur,
      (Task.addDailyTrigger 60 sampleTask sampleUniformEvent).1.triggers.calendarTrigger =
        sampleTask.triggers.calendarTrigger ++
          [dailyCalendarTrigger sampleUniformEvent.next
            (some { duration := dur, interval := 3600 })] ∧
      (0 : Int) < 3600 ∧ (3600 : Int) ≤ dur) ∧
    (∃ dur,
      (Task.addWeeklyTrigger 60 sampleTask sampleUniformEvent).1.triggers.calendarTrigger =
        sampleTask.triggers.calendarTrigger ++
          [weeklyCalendarTrigger sampleUniformEvent sampleUniformEvent.next
            (some { duration := dur, interval := 3600 })] ∧
      (0 : Int) < 3600 ∧ (3600 : Int) ≤ dur) :=
  repetition_interval_bounds 60 sampleTask sampleUniformEvent 0 3600 3
    (by decide) (by decide) (by decide) (by decide)

/-- Claim C10: `AddSchedules` only appends to the `TimeTrigger` and
`CalendarTrigger` lists — existing entries are never removed, replaced or
reordered — and leaves the registration info, principals, settings and
actions of the task unchanged. -/
theorem addSchedules_frame (maxTriggers : Nat) (t : Task) (events : List Event) :
    (∃ added, (Task.AddSchedules maxTriggers t events).1.triggers.timeTrigger =
      t.triggers.timeTrigger ++ added) ∧
    (∃ added, (Task.AddSchedules maxTriggers t events).1.triggers.calendarTrigger =
      t.triggers.calendarTrigger ++ added) ∧
    (Task.AddSchedules maxTriggers t events).1.registrationInfo = t.registrationInfo ∧
    (Task.AddSchedules maxTriggers t events).1.principals = t.principals ∧
    (Task.AddSchedules maxTriggers t events).1.settings = t.settings ∧
    (Task.AddSchedules maxTriggers t events).1.actions = t.actions := by
  obtain ⟨⟨a1, h1⟩, ⟨b1, h2, _⟩, _, _, h5, h6, h7, h8⟩ :=
    addSchedules_extends maxTriggers events t
  exact ⟨⟨a1, h1⟩, ⟨b1, h2⟩, h5, h6, h7, h8⟩

/-- Claim C1: starting from `NewTask`, after any sequence of `AddSchedules`
calls no emitted `CalendarTrigger` carries both `DaysOfMonth` (a
`ScheduleByMonth` component) and `DaysOfWeek` (a `ScheduleByWeek` or
`ScheduleByMonthDayOfWeek` component); and for a monthly event whose day
and weekday fields both have values, `addMonthlyTrigger` emits no trigger
and records exactly one warning. -/
theorem calendarTrigger_exclusivity (maxTriggers : Nat) (date userID : String)
    (seqs : List (List Event)) (t : Task) (schedule : Event)
    (hw : schedule.weekDayHasValue = true) (hd : schedule.dayHasValue = true) :
    (∀ c ∈ (Task.addSchedulesSeq maxTriggers (NewTask date userID) seqs).1.triggers.calendarTrigger,
      CalendarTrigger.exclusiveOk c = true) ∧
    (Task.addMonthlyTrigger maxTriggers t schedule).1 = t ∧
    (Task.addMonthlyTrigger maxTriggers t schedule).2.length = 1 := by
  have hmb := addMonthlyTrigger_bothValues maxTriggers t schedule hw hd
  refine ⟨?_, hmb.1, hmb.2⟩
  obtain ⟨_, ⟨added, hcal, hok⟩, _⟩ :=
    addSchedulesSeq_extends maxTriggers seqs (NewTask date userID)
  intro c hc
  rw [hcal] at hc
  have hnil : (NewTask date userID).triggers.calendarTrigger = [] := rfl
  rw [hnil, List.nil_append] at hc
  exact hok c hc

/-- Witness for claim C1: one `AddSchedules` call on a fresh task with the
sample monthly event carrying both a day and a weekday value. -/
theorem calendarTrigger_exclusivity_witness :
    (∀ c ∈ (Task.addSchedulesSeq 2 sampleTask [[sampleBothEvent]]).1.triggers.calendarTrigger,
      CalendarTrigger.exclusiveOk c = true) ∧
    (Task.addMonthlyTrigger 2 sampleTask sampleBothEvent).1 = sampleTask ∧
    (Task.addMonthlyTrigger 2 sampleTask sampleBothEvent).2.length = 1 :=
  calendarTrigger_exclusivity 2 sampleDate sampleUserID [[sampleBothEvent]] sampleTask
    sampleBothEvent rfl rfl

end Resticprofile
